import Mathlib

/-!
Verification development for redfour, a binary semaphore backed by a shared
key-value store. The store state and the three atomic scripts of
src/src/index.js are embedded as executable Lean functions; the wait-acquire
loop and the lifecycle manager are embedded as explicit state machines driven
by events. All machine integers here fit comfortably in the signed 64-bit
range the store guarantees, so they are modelled as unbounded Int.
-/

/-- Value inside a script reply: the Lua tables mix integers and strings, and
the host language reads them without conversion. -/
inductive RedisValue where
  | int (i : Int)
  | str (s : String)
deriving DecidableEq, Repr

/-- A store-resident lock record: the single hash field index together with
the remaining time-to-live of the key in milliseconds, as the PTTL command
would report it at the moment a script runs. -/
structure LockRecord where
  index : Int
  pttl : Int
deriving DecidableEq, Repr

/-- The slice of the store the scripts touch: lock records keyed by full lock
key, integer counters keyed by counter key, and the log of PUBLISH calls as
channel-message pairs, most recent first. -/
structure RedisState where
  locks : List (String × LockRecord)
  counters : List (String × Int)
  published : List (String × String)
deriving DecidableEq, Repr

def RedisState.empty : RedisState := ⟨[], [], []⟩

def RedisState.getLock (s : RedisState) (k : String) : Option LockRecord :=
  (s.locks.find? (fun p => p.1 == k)).map (fun p => p.2)

/-- INCR and similar commands treat a missing counter key as zero. -/
def RedisState.getCounter (s : RedisState) (k : String) : Int :=
  ((s.counters.find? (fun p => p.1 == k)).map (fun p => p.2)).getD 0

def setAssoc {α : Type} (l : List (String × α)) (k : String) (v : α) :
    List (String × α) :=
  match l with
  | [] => [(k, v)]
  | (k0, v0) :: rest =>
    if k0 == k then (k, v) :: rest else (k0, v0) :: setAssoc rest k v

def delAssoc {α : Type} (l : List (String × α)) (k : String) :
    List (String × α) :=
  match l with
  | [] => []
  | (k0, v0) :: rest =>
    if k0 == k then rest else (k0, v0) :: delAssoc rest k

/-- Lock key layout: the lock record for an id lives at namespace:id. -/
def lockKeyOf (ns id : String) : String := ns ++ ":" ++ id

/-- Counter key layout: one shared counter per namespace at namespaceindex. -/
def counterKeyOf (ns : String) : String := ns ++ "index"

/-- Release notifications are published on the namespace-release channel. -/
def releaseChannelOf (ns : String) : String := ns ++ "-release"

/-- The acquire script of Lock._acquireLock, executed by the store as one
indivisible step: if the lock key EXISTS, reply with flag 0, index -1 and the
PTTL of the existing key, touching nothing; otherwise INCR the counter key to
obtain the index, HMSET the index field, PEXPIRE the key to ttl, and reply
with flag 1, the index and the requested ttl. -/
def acquireScript (s : RedisState) (lockKey counterKey : String) (ttl : Int) :
    (Int × Int × Int) × RedisState :=
  match s.getLock lockKey with
  | some rec => ((0, -1, rec.pttl), s)
  | none =>
    let index := s.getCounter counterKey + 1
    (((1 : Int), index, ttl),
     { locks := setAssoc s.locks lockKey { index := index, pttl := ttl },
       counters := setAssoc s.counters counterKey index,
       published := s.published })

/-- Result shape produced by Lock._acquireLock from the raw script reply:
success is the truthiness of the first slot, index and ttl are the second and
third slots. -/
structure LockResult where
  id : String
  success : Bool
  index : Int
  ttl : Int
deriving DecidableEq, Repr

/-- Lock._acquireLock without the lifecycle accounting: runs the acquire
script on the namespaced lock and counter keys and wraps the reply. -/
def acquireLockRun (ns : String) (s : RedisState) (id : String) (ttl : Int) :
    LockResult × RedisState :=
  let r := acquireScript s (lockKeyOf ns id) (counterKeyOf ns) ttl
  ({ id := id, success := r.1.1 != 0, index := r.1.2.1, ttl := r.1.2.2 }, r.2)

/-- The release script of Lock.releaseLock, one indivisible step: a missing
key replies with the four-element table 1, expired, expired, 0; a matching
stored index deletes the key, publishes the lock key on the namespace release
channel and replies 1, released, index; a mismatch replies 0, conflict, index
and touches nothing. -/
def releaseScript (ns : String) (s : RedisState) (lockKey : String)
    (index : Int) : List RedisValue × RedisState :=
  match s.getLock lockKey with
  | none => ([.int 1, .str "expired", .str "expired", .int 0], s)
  | some rec =>
    if rec.index == index then
      ([.int 1, .str "released", .int rec.index],
       { locks := delAssoc s.locks lockKey,
         counters := s.counters,
         published := (releaseChannelOf ns, lockKey) :: s.published })
    else
      ([.int 0, .str "conflict", .int rec.index], s)

/-- Truthiness of an optional reply slot under the host language rules:
a missing slot and the integer zero are falsy, the empty string is falsy,
everything else is truthy. -/
def truthy : Option RedisValue → Bool
  | some (.int i) => i != 0
  | some (.str t) => t != ""
  | none => false

/-- Result shape produced by Lock.releaseLock: success is the truthiness of
reply slot 0, result is slot 1 and index is slot 2, read without conversion,
so they keep whatever type the script put there. -/
structure ReleaseResult where
  id : String
  success : Bool
  result : Option RedisValue
  index : Option RedisValue
deriving DecidableEq, Repr

/-- Lock.releaseLock without the lifecycle accounting: runs the release
script on the namespaced lock key with the handle index and wraps the
reply slots. -/
def releaseLockRun (ns : String) (s : RedisState) (lockId : String)
    (index : Int) : ReleaseResult × RedisState :=
  let r := releaseScript ns s (lockKeyOf ns lockId) index
  ({ id := lockId, success := truthy (r.1.get? 0), result := r.1.get? 1,
     index := r.1.get? 2 }, r.2)

/-- Result shape of the renew operation, as documented and tested: success
flag, a status text among renewed, conflict and missing, and an index. -/
structure RenewResult where
  id : String
  success : Bool
  result : String
  index : Int
deriving DecidableEq, Repr

/-- Modelled from the spec: the renew operation is declared in index.d.ts and
exercised by the test suite, but its implementation is not among the sources,
so this follows the spec wording. A missing record replies missing with index
-1; a stored index different from the handle index replies conflict with
index -1; a match extends the record expiry to ttl and replies renewed with
the unchanged index. Renew never publishes a notification. -/
def renewLockRun (ns : String) (s : RedisState) (lockId : String)
    (index ttl : Int) : RenewResult × RedisState :=
  match s.getLock (lockKeyOf ns lockId) with
  | none =>
    ({ id := lockId, success := false, result := "missing", index := -1 }, s)
  | some rec =>
    if rec.index == index then
      ({ id := lockId, success := true, result := "renewed", index := index },
       { locks := setAssoc s.locks (lockKeyOf ns lockId)
           { index := rec.index, pttl := ttl },
         counters := s.counters, published := s.published })
    else
      ({ id := lockId, success := false, result := "conflict", index := -1 },
       s)

/-- The in-memory flags of a Lock instance that gate admission of new
operations: the namespace and whether close has begun, that is whether the
field holding the close completion is already set. -/
structure LockInstance where
  ns : String
  closing : Bool
deriving DecidableEq, Repr

/-- The message of the dedicated error every operation fails with once close
has begun. -/
def closingError : String := "redfour lock is closing"

/-- Lock.acquireLock: rejects with the closing error when close has begun,
before touching the store; otherwise delegates to the internal acquire. -/
def Lock.acquireLock (inst : LockInstance) (s : RedisState) (id : String)
    (ttl : Int) : Except String (LockResult × RedisState) :=
  if inst.closing then .error closingError
  else .ok (acquireLockRun inst.ns s id ttl)

/-- Lock.releaseLock: rejects with the closing error when close has begun,
before touching the store; otherwise delegates to the release script. -/
def Lock.releaseLock (inst : LockInstance) (s : RedisState) (lockId : String)
    (index : Int) : Except String (ReleaseResult × RedisState) :=
  if inst.closing then .error closingError
  else .ok (releaseLockRun inst.ns s lockId index)

/-- Lock.renewLock admission: rejects with the closing error when close has
begun, otherwise delegates to the renew script model. -/
def Lock.renewLock (inst : LockInstance) (s : RedisState) (lockId : String)
    (index ttl : Int) : Except String (RenewResult × RedisState) :=
  if inst.closing then .error closingError
  else .ok (renewLockRun inst.ns s lockId index ttl)

/-- The value resolved by the wait-acquire loop: the fields of the lock
result produced by the resolving acquire attempt, plus the immediate flag
the loop stamps on it. -/
structure WaitOutcome where
  success : Bool
  index : Int
  ttl : Int
  immediate : Bool
deriving DecidableEq, Repr

/-- The local state of one running waitAcquireLock call: the expired and
acquiring flags, the initial argument of the in-flight tryAcquire when one is
in flight, whether the pubsub listener for the lock key is registered, the
armed fallback timer with its delay, whether the overall deadline timer is
armed, and the resolved value once the promise settles. -/
structure WaitState where
  expired : Bool
  acquiring : Bool
  pendingInitial : Bool
  waiterRegistered : Bool
  ttlTimer : Option Int
  deadlineArmed : Bool
  resolved : Option WaitOutcome
deriving DecidableEq, Repr

/-- The body of tryAcquire up to dispatching the store call: remove the
pubsub listener, clear the fallback timer, set the acquiring flag and record
the initial argument of this attempt. -/
def tryAcquire (initial : Bool) (s : WaitState) : WaitState :=
  { s with waiterRegistered := false, ttlTimer := none, acquiring := true,
           pendingInitial := initial }

/-- The synchronous start of waitAcquireLock: arm the overall deadline timer
when waitTtl is positive, then call tryAcquire with initial set to true. -/
def waitStart (waitTtl : Int) : WaitState :=
  tryAcquire true
    { expired := false, acquiring := false, pendingInitial := false,
      waiterRegistered := false, ttlTimer := none,
      deadlineArmed := waitTtl > 0, resolved := none }

/-- Events driving one waitAcquireLock call: the store reply to the in-flight
acquire attempt, the overall deadline timer firing, the fallback timer
firing, and a release notification for the lock key arriving. Replies carry
the fields the loop inspects. -/
inductive WaitEvent where
  | acquireReply (success : Bool) (index : Int) (ttl : Int)
  | deadlineFire
  | ttlTimerFire
  | notify
deriving DecidableEq, Repr

/-- One step of the wait-acquire loop, following the handlers in
waitAcquireLock. A reply ends the in-flight attempt; when it succeeded or the
expired flag is set, the deadline timer is cleared and the promise resolves
with immediate equal to the initial argument of the resolving attempt;
otherwise the pubsub listener is registered and the fallback timer is armed
for the maximum of the reply ttl and 100. The deadline handler disarms
itself, sets expired, removes the listener, clears the fallback timer, and
calls tryAcquire only when no attempt is in flight. The fallback timer and a
notification call tryAcquire when armed or registered, and are otherwise
ignored. -/
def waitStep (s : WaitState) (e : WaitEvent) : WaitState :=
  if s.resolved.isSome then s
  else
    match e with
    | .acquireReply success index ttl =>
      if !s.acquiring then s
      else
        let s1 := { s with acquiring := false }
        if success || s1.expired then
          { s1 with deadlineArmed := false,
                    resolved := some { success := success, index := index,
                                       ttl := ttl,
                                       immediate := s1.pendingInitial } }
        else
          { s1 with waiterRegistered := true, ttlTimer := some (max ttl 100) }
    | .deadlineFire =>
      if !s.deadlineArmed then s
      else
        let s1 := { s with deadlineArmed := false, expired := true,
                           waiterRegistered := false, ttlTimer := none }
        if !s1.acquiring then tryAcquire false s1 else s1
    | .ttlTimerFire =>
      if s.ttlTimer.isSome then tryAcquire false s else s
    | .notify =>
      if s.waiterRegistered then tryAcquire false s else s

/-- Run of one waitAcquireLock call: start with the given waitTtl, then
consume the events in order. -/
def waitRun (waitTtl : Int) (es : List WaitEvent) : WaitState :=
  es.foldl waitStep (waitStart waitTtl)

/-- Lock.waitAcquireLock admission: rejects with the closing error when close
has begun, before registering anything; otherwise starts the loop. -/
def Lock.waitAcquireLock (inst : LockInstance) (waitTtl : Int) :
    Except String WaitState :=
  if inst.closing then .error closingError else .ok (waitStart waitTtl)

/-- The state close consults: whether this instance created its own primary
connection, the stored close completion as a promise identifier paired with
the recorded close-primary decision, and a counter supplying fresh promise
identifiers. -/
structure CloseState where
  primaryIsNovel : Bool
  completion : Option (Nat × Bool)
  nextId : Nat
deriving DecidableEq, Repr

/-- The message of the error thrown by a repeated close whose close-primary
choice conflicts with the recorded decision; cp is the conflicting choice of
the second call. -/
def closeConflictError (cp : Bool) : String :=
  "already closing and will " ++ (if cp then "not " else "") ++ "close primary"

/-- Lock.close: the close-primary argument defaults to whether the primary
connection was created internally. The first call stores a fresh completion
together with the decision and returns it; a repeated call returns the very
same completion when the decision agrees, and throws the conflict error,
changing nothing, when it does not. -/
def Lock.close (s : CloseState) (arg : Option Bool) :
    Except String Nat × CloseState :=
  let cp := arg.getD s.primaryIsNovel
  match s.completion with
  | none =>
    (.ok s.nextId,
     { s with completion := some (s.nextId, cp), nextId := s.nextId + 1 })
  | some (pid, b) =>
    if b != cp then (.error (closeConflictError cp), s) else (.ok pid, s)

/-- Events of the lifecycle manager: an external operation registering in the
Active-Operation Set under a fresh token, its completion callback removing
the token, the first close call, and the connection teardown that runs after
the drain wait completes. -/
inductive LifeEvent where
  | opStart (t : Nat)
  | opDone (t : Nat)
  | closeCall
  | quit
deriving DecidableEq, Repr

/-- Lifecycle manager state: the Active-Operation Set as the list of live
tokens, whether close has begun, whether the drain wait has completed, and
whether the connections have been quit. -/
structure LifeState where
  active : List Nat
  closing : Bool
  drained : Bool
  quitDone : Bool
deriving DecidableEq, Repr

def LifeState.init : LifeState :=
  { active := [], closing := false, drained := false, quitDone := false }

/-- One lifecycle event, with its enabling condition; none means the event
cannot occur in that state. An operation registers only while not closing
and under a fresh token. Its completion removes the token and, when close has
begun and the set becomes empty, completes the drain wait. The first close
call marks closing and completes the drain wait at once when the set is
already empty. The teardown runs once, only after the drain wait completed. -/
def lifeStep (s : LifeState) (e : LifeEvent) : Option LifeState :=
  match e with
  | .opStart t =>
    if s.closing ∨ t ∈ s.active then none
    else some { s with active := t :: s.active }
  | .opDone t =>
    if t ∈ s.active then
      some { s with active := s.active.erase t,
                    drained :=
                      s.drained || (s.closing && (s.active.erase t).isEmpty) }
    else none
  | .closeCall =>
    if s.closing then none
    else some { s with closing := true, drained := s.active.isEmpty }
  | .quit =>
    if s.drained && !s.quitDone then some { s with quitDone := true }
    else none

/-- Run of the lifecycle manager over a list of events; none when some event
occurs in a state that does not enable it. -/
def lifeRun (s : LifeState) : List LifeEvent → Option LifeState
  | [] => some s
  | e :: es =>
    match lifeStep s e with
    | none => none
    | some s1 => lifeRun s1 es

/-- Store states reachable from the empty store through the operations of
the system: acquire, release and renew over arbitrary namespaces, ids and
arguments, plus the store expiring a key whose time-to-live elapsed. -/
inductive Reachable : RedisState → Prop where
  | init : Reachable RedisState.empty
  | acquire (ns id : String) (ttl : Int) (s : RedisState) :
      Reachable s → Reachable (acquireLockRun ns s id ttl).2
  | release (ns lockId : String) (index : Int) (s : RedisState) :
      Reachable s → Reachable (releaseLockRun ns s lockId index).2
  | renew (ns lockId : String) (index ttl : Int) (s : RedisState) :
      Reachable s → Reachable (renewLockRun ns s lockId index ttl).2
  | expire (k : String) (s : RedisState) :
      Reachable s → Reachable { s with locks := delAssoc s.locks k }

/-- State invariant: every stored lock record carries an index of at least
one, and every counter is nonnegative. -/
def GoodState (s : RedisState) : Prop :=
  (∀ p ∈ s.locks, 1 ≤ p.2.index) ∧ ∀ c ∈ s.counters, 0 ≤ c.2

/-- Lifecycle invariant: the drain wait completes only with close begun and
the Active-Operation Set empty. -/
def LifeInv (s : LifeState) : Prop :=
  s.drained = true → s.closing = true ∧ s.active = []

theorem mem_setAssoc {α : Type} (l : List (String × α)) (k : String) (v : α)
    (p : String × α) (h : p ∈ setAssoc l k v) : p = (k, v) ∨ p ∈ l := by
  induction l with
  | nil => simpa [setAssoc] using h
  | cons q rest ih =>
    obtain ⟨k0, v0⟩ := q
    simp only [setAssoc] at h
    by_cases hk : (k0 == k) = true
    · simp only [hk, if_true] at h
      rcases List.mem_cons.mp h with h | h
      · exact Or.inl h
      · exact Or.inr (List.mem_cons_of_mem _ h)
    · simp only [hk, if_false] at h
      rcases List.mem_cons.mp h with h | h
      · exact Or.inr (h ▸ List.mem_cons_self _ _)
      · rcases ih h with h | h
        · exact Or.inl h
        · exact Or.inr (List.mem_cons_of_mem _ h)

theorem mem_delAssoc {α : Type} (l : List (String × α)) (k : String)
    (p : String × α) (h : p ∈ delAssoc l k) : p ∈ l := by
  induction l with
  | nil => simp [delAssoc] at h
  | cons q rest ih =>
    obtain ⟨k0, v0⟩ := q
    simp only [delAssoc] at h
    by_cases hk : (k0 == k) = true
    · simp only [hk, if_true] at h
      exact List.mem_cons_of_mem _ h
    · simp only [hk, if_false] at h
      rcases List.mem_cons.mp h with h | h
      · exact h ▸ List.mem_cons_self _ _
      · exact List.mem_cons_of_mem _ (ih h)

theorem getCounter_nonneg (s : RedisState) (k : String)
    (h : ∀ c ∈ s.counters, 0 ≤ c.2) : 0 ≤ s.getCounter k := by
  unfold RedisState.getCounter
  cases hf : s.counters.find? (fun p => p.1 == k) with
  | none => simp
  | some c => simpa using h c (List.mem_of_find?_eq_some hf)

theorem getLock_index_pos (s : RedisState) (k : String) (rec : LockRecord)
    (hg : GoodState s) (h : s.getLock k = some rec) : 1 ≤ rec.index := by
  unfold RedisState.getLock at h
  rcases Option.map_eq_some'.mp h with ⟨p, hf, hp⟩
  exact hp ▸ hg.1 p (List.mem_of_find?_eq_some hf)

theorem reachable_good (s : RedisState) (h : Reachable s) : GoodState s := by
  induction h with
  | init => exact ⟨by simp [RedisState.empty], by simp [RedisState.empty]⟩
  | acquire ns id ttl s hs ih =>
    cases hg : s.getLock (lockKeyOf ns id) with
    | some rec => simpa [acquireLockRun, acquireScript, hg] using ih
    | none =>
      have hc := getCounter_nonneg s (counterKeyOf ns) ih.2
      simp only [acquireLockRun, acquireScript, hg]
      constructor
      · intro p hp
        rcases mem_setAssoc _ _ _ _ hp with hp | hp
        · subst hp; simpa using by omega
        · exact ih.1 p hp
      · intro c hcm
        rcases mem_setAssoc _ _ _ _ hcm with hcm | hcm
        · subst hcm; simpa using by omega
        · exact ih.2 c hcm
  | release ns lockId index s hs ih =>
    cases hg : s.getLock (lockKeyOf ns lockId) with
    | none => simpa [releaseLockRun, releaseScript, hg] using ih
    | some rec =>
      by_cases hi : (rec.index == index) = true
      · simp only [releaseLockRun, releaseScript, hg, hi, if_true]
        exact ⟨fun p hp => ih.1 p (mem_delAssoc _ _ _ hp), ih.2⟩
      · simpa [releaseLockRun, releaseScript, hg, hi] using ih
  | renew ns lockId index ttl s hs ih =>
    cases hg : s.getLock (lockKeyOf ns lockId) with
    | none => simpa [renewLockRun, hg] using ih
    | some rec =>
      by_cases hi : (rec.index == index) = true
      · simp only [renewLockRun, hg, hi, if_true]
        refine ⟨fun p hp => ?_, ih.2⟩
        rcases mem_setAssoc _ _ _ _ hp with hp | hp
        · subst hp
          simpa using getLock_index_pos s _ rec ih hg
        · exact ih.1 p hp
      · simpa [renewLockRun, hg, hi] using ih
  | expire k s hs ih =>
    exact ⟨fun p hp => ih.1 p (mem_delAssoc _ _ _ hp), ih.2⟩

/-- C10: in every store state reachable through the operations from the empty
store, every stored lock record carries an index of at least one, so the
sentinel index -1 of a failed acquire never matches a stored index: a release
with that handle leaves the store unchanged and replies expired or conflict,
never released. -/
theorem failed_acquire_handle_harmless (s : RedisState) (ns lockId : String)
    (h : Reachable s) :
    (∀ p ∈ s.locks, 1 ≤ p.2.index) ∧
    (releaseLockRun ns s lockId (-1)).2 = s ∧
    ((releaseLockRun ns s lockId (-1)).1.result =
        some (RedisValue.str "expired") ∨
      (releaseLockRun ns s lockId (-1)).1.result =
        some (RedisValue.str "conflict")) := by
  have hg := reachable_good s h
  refine ⟨hg.1, ?_⟩
  cases hge : s.getLock (lockKeyOf ns lockId) with
  | none => simp [releaseLockRun, releaseScript, hge]
  | some rec =>
    have hpos := getLock_index_pos s _ rec hg hge
    have hne : (rec.index == (-1 : Int)) = false := by
      simp only [beq_eq_false_iff_ne, ne_eq]
      omega
    simp [releaseLockRun, releaseScript, hge, hne]

/-- Witness for C10 at the store reached by one successful acquire. -/
theorem failed_acquire_handle_harmless_witness :
    Reachable (acquireLockRun "lock" RedisState.empty "a" 5).2 ∧
    ((∀ p ∈ (acquireLockRun "lock" RedisState.empty "a" 5).2.locks,
        1 ≤ p.2.index) ∧
      (releaseLockRun "lock" (acquireLockRun "lock" RedisState.empty "a" 5).2
          "a" (-1)).2 =
        (acquireLockRun "lock" RedisState.empty "a" 5).2 ∧
      ((releaseLockRun "lock"
            (acquireLockRun "lock" RedisState.empty "a" 5).2 "a" (-1)).1.result =
          some (RedisValue.str "expired") ∨
        (releaseLockRun "lock"
            (acquireLockRun "lock" RedisState.empty "a" 5).2 "a"
            (-1)).1.result = some (RedisValue.str "conflict"))) :=
  ⟨Reachable.acquire "lock" "a" 5 RedisState.empty Reachable.init,
   failed_acquire_handle_harmless _ "lock" "a"
     (Reachable.acquire "lock" "a" 5 RedisState.empty Reachable.init)⟩

/-- C1: when a record for the id exists, acquireLock replies failure with
index -1 and the remaining time-to-live of the existing record and leaves the
store unchanged; when none exists, it increments the namespace counter to
obtain the index, stores the record with that index and expiry ttl, and
replies success with that index and ttl. -/
theorem acquireLock_spec (ns : String) (s : RedisState) (id : String)
    (ttl : Int) :
    (∀ rec, s.getLock (lockKeyOf ns id) = some rec →
      acquireLockRun ns s id ttl =
        ({ id := id, success := false, index := -1, ttl := rec.pttl }, s)) ∧
    (s.getLock (lockKeyOf ns id) = none →
      acquireLockRun ns s id ttl =
        ({ id := id, success := true,
           index := s.getCounter (counterKeyOf ns) + 1, ttl := ttl },
         { locks := setAssoc s.locks (lockKeyOf ns id)
             { index := s.getCounter (counterKeyOf ns) + 1, pttl := ttl },
           counters := setAssoc s.counters (counterKeyOf ns)
             (s.getCounter (counterKeyOf ns) + 1),
           published := s.published })) := by
  constructor
  · intro rec h
    simp [acquireLockRun, acquireScript, h]
  · intro h
    simp [acquireLockRun, acquireScript, h]

/-- Witness for C1 at an empty store and at a store holding the record. -/
theorem acquireLock_spec_witness :
    (RedisState.empty.getLock (lockKeyOf "lock" "a") = none ∧
      acquireLockRun "lock" RedisState.empty "a" 7 =
        ({ id := "a", success := true,
           index := RedisState.empty.getCounter (counterKeyOf "lock") + 1,
           ttl := 7 },
         { locks := setAssoc RedisState.empty.locks (lockKeyOf "lock" "a")
             { index := RedisState.empty.getCounter (counterKeyOf "lock") + 1,
               pttl := 7 },
           counters := setAssoc RedisState.empty.counters (counterKeyOf "lock")
             (RedisState.empty.getCounter (counterKeyOf "lock") + 1),
           published := RedisState.empty.published })) ∧
    ((RedisState.mk [("lock:a", ⟨1, 7⟩)] [("lockindex", 1)] []).getLock
        (lockKeyOf "lock" "a") = some ⟨1, 7⟩ ∧
      acquireLockRun "lock"
          (RedisState.mk [("lock:a", ⟨1, 7⟩)] [("lockindex", 1)] []) "a" 9 =
        ({ id := "a", success := false, index := -1, ttl := (7 : Int) },
         RedisState.mk [("lock:a", ⟨1, 7⟩)] [("lockindex", 1)] [])) :=
  ⟨⟨by decide, (acquireLock_spec "lock" RedisState.empty "a" 7).2 (by decide)⟩,
   ⟨by decide,
    (acquireLock_spec "lock"
        (RedisState.mk [("lock:a", ⟨1, 7⟩)] [("lockindex", 1)] []) "a" 9).1
      ⟨1, 7⟩ (by decide)⟩⟩

/-- C2: on a store holding a record for the id, releaseLock with the matching
handle index deletes the record, publishes the lock key on the namespace
release channel and replies success released with the stored index; with any
other handle index it replies failure conflict with the stored index and
leaves the store unchanged, so a stale handle never removes a newer record. -/
theorem releaseLock_spec (ns : String) (s : RedisState) (lockId : String)
    (I : Int) (rec : LockRecord)
    (h : s.getLock (lockKeyOf ns lockId) = some rec) :
    (I = rec.index →
      releaseLockRun ns s lockId I =
        ({ id := lockId, success := true,
           result := some (.str "released"),
           index := some (.int rec.index) },
         { locks := delAssoc s.locks (lockKeyOf ns lockId),
           counters := s.counters,
           published := (releaseChannelOf ns, lockKeyOf ns lockId) ::
             s.published })) ∧
    (I ≠ rec.index →
      releaseLockRun ns s lockId I =
        ({ id := lockId, success := false,
           result := some (.str "conflict"),
           index := some (.int rec.index) }, s)) := by
  constructor
  · intro hI
    subst hI
    simp [releaseLockRun, releaseScript, h, truthy]
  · intro hI
    have hne : ¬(rec.index == I) = true := by
      simp only [beq_iff_eq]
      exact fun hc => hI hc.symm
    simp [releaseLockRun, releaseScript, h, hne, truthy]

/-- Witness for C2: both branches at a store holding one record. -/
theorem releaseLock_spec_witness :
    ((RedisState.mk [("lock:a", ⟨3, 50⟩)] [("lockindex", 3)] []).getLock
        (lockKeyOf "lock" "a") = some ⟨3, 50⟩ ∧
      releaseLockRun "lock"
          (RedisState.mk [("lock:a", ⟨3, 50⟩)] [("lockindex", 3)] []) "a" 3 =
        ({ id := "a", success := true,
           result := some (.str "released"), index := some (.int 3) },
         { locks := delAssoc [("lock:a", ⟨3, 50⟩)] (lockKeyOf "lock" "a"),
           counters := [("lockindex", 3)],
           published := [(releaseChannelOf "lock", lockKeyOf "lock" "a")] })) ∧
    releaseLockRun "lock"
        (RedisState.mk [("lock:a", ⟨3, 50⟩)] [("lockindex", 3)] []) "a" 2 =
      ({ id := "a", success := false,
         result := some (.str "conflict"), index := some (.int 3) },
       RedisState.mk [("lock:a", ⟨3, 50⟩)] [("lockindex", 3)] []) :=
  ⟨⟨by decide,
    (releaseLock_spec "lock"
        (RedisState.mk [("lock:a", ⟨3, 50⟩)] [("lockindex", 3)] []) "a" 3
        ⟨3, 50⟩ (by decide)).1 rfl⟩,
   (releaseLock_spec "lock"
       (RedisState.mk [("lock:a", ⟨3, 50⟩)] [("lockindex", 3)] []) "a" 2
       ⟨3, 50⟩ (by decide)).2 (by decide)⟩

/-- C3 evaluation: releasing when no record exists leaves the store unchanged
and replies success with result expired, but the index slot of the reply is
the string expired, not the integer zero, because the script returns the
four-element table 1, expired, expired, 0 of which the caller reads slots 0,
1 and 2; a correct release followed by a second release of the same handle
shows the idempotent expired reply. -/
theorem releaseLock_absent_eval :
    releaseLockRun "lock" RedisState.empty "a" 1 =
      ({ id := "a", success := true,
         result := some (RedisValue.str "expired"),
         index := some (RedisValue.str "expired") }, RedisState.empty) ∧
    (releaseLockRun "lock" RedisState.empty "a" 1).1.index ≠
      some (RedisValue.int 0) ∧
    (releaseLockRun "lock"
        (releaseLockRun "lock"
          (acquireLockRun "lock" RedisState.empty "a" 1000).2 "a" 1).2
        "a" 1).1 =
      { id := "a", success := true,
        result := some (RedisValue.str "expired"),
        index := some (RedisValue.str "expired") } := by decide

/-- C4: renew on a missing record replies failure missing with index -1; on a
stored index different from the handle index it replies failure conflict with
index -1; on a match it extends the record expiry to ttl and replies success
renewed with the unchanged index, and in every branch the publish log is
untouched. -/
theorem renewLock_spec (ns : String) (s : RedisState) (lockId : String)
    (I ttl : Int) :
    (s.getLock (lockKeyOf ns lockId) = none →
      renewLockRun ns s lockId I ttl =
        ({ id := lockId, success := false, result := "missing",
           index := -1 }, s)) ∧
    (∀ rec, s.getLock (lockKeyOf ns lockId) = some rec → rec.index ≠ I →
      renewLockRun ns s lockId I ttl =
        ({ id := lockId, success := false, result := "conflict",
           index := -1 }, s)) ∧
    (∀ rec, s.getLock (lockKeyOf ns lockId) = some rec → rec.index = I →
      renewLockRun ns s lockId I ttl =
        ({ id := lockId, success := true, result := "renewed", index := I },
         { locks := setAssoc s.locks (lockKeyOf ns lockId)
             { index := rec.index, pttl := ttl },
           counters := s.counters, published := s.published })) := by
  refine ⟨fun h => ?_, fun rec h hne => ?_, fun rec h heq => ?_⟩
  · simp [renewLockRun, h]
  · simp [renewLockRun, h, hne]
  · simp [renewLockRun, h, heq]

/-- Witness for C4: all three branches at concrete stores. -/
theorem renewLock_spec_witness :
    (RedisState.empty.getLock (lockKeyOf "lock" "a") = none ∧
      renewLockRun "lock" RedisState.empty "a" 1 500 =
        ({ id := "a", success := false, result := "missing", index := -1 },
         RedisState.empty)) ∧
    renewLockRun "lock"
        (RedisState.mk [("lock:a", ⟨2, 40⟩)] [("lockindex", 2)] []) "a" 1 500 =
      ({ id := "a", success := false, result := "conflict", index := -1 },
       RedisState.mk [("lock:a", ⟨2, 40⟩)] [("lockindex", 2)] []) ∧
    renewLockRun "lock"
        (RedisState.mk [("lock:a", ⟨2, 40⟩)] [("lockindex", 2)] []) "a" 2 500 =
      ({ id := "a", success := true, result := "renewed", index := 2 },
       { locks := setAssoc [("lock:a", ⟨2, 40⟩)] (lockKeyOf "lock" "a")
           ⟨2, 500⟩,
         counters := [("lockindex", 2)], published := [] }) :=
  ⟨⟨by decide, (renewLock_spec "lock" RedisState.empty "a" 1 500).1
      (by decide)⟩,
   (renewLock_spec "lock"
       (RedisState.mk [("lock:a", ⟨2, 40⟩)] [("lockindex", 2)] [])
       "a" 1 500).2.1 ⟨2, 40⟩ (by decide) (by decide),
   (renewLock_spec "lock"
       (RedisState.mk [("lock:a", ⟨2, 40⟩)] [("lockindex", 2)] [])
       "a" 2 500).2.2 ⟨2, 40⟩ (by decide) rfl⟩

/-- C7: once close has begun, acquire, release, renew and wait-acquire all
fail at once with the dedicated closing error; the error branch returns no
updated store, reflecting that the rejection happens before any remote
call. -/
theorem closing_rejects_all (inst : LockInstance) (s : RedisState)
    (id lockId : String) (ttl index waitTtl : Int)
    (h : inst.closing = true) :
    Lock.acquireLock inst s id ttl = .error closingError ∧
    Lock.releaseLock inst s lockId index = .error closingError ∧
    Lock.renewLock inst s lockId index ttl = .error closingError ∧
    Lock.waitAcquireLock inst waitTtl = .error closingError := by
  simp [Lock.acquireLock, Lock.releaseLock, Lock.renewLock,
        Lock.waitAcquireLock, h]

/-- Witness for C7 at a closing instance. -/
theorem closing_rejects_all_witness :
    LockInstance.closing ⟨"lock", true⟩ = true ∧
    (Lock.acquireLock ⟨"lock", true⟩ RedisState.empty "a" 5 =
        .error closingError ∧
      Lock.releaseLock ⟨"lock", true⟩ RedisState.empty "a" 1 =
        .error closingError ∧
      Lock.renewLock ⟨"lock", true⟩ RedisState.empty "a" 1 5 =
        .error closingError ∧
      Lock.waitAcquireLock ⟨"lock", true⟩ 5 = .error closingError) :=
  ⟨rfl, closing_rejects_all ⟨"lock", true⟩ RedisState.empty "a" "a" 5 1 5 rfl⟩

/-- C9: the first close records a fresh completion with the effective
close-primary choice; a repeated close with the same choice returns the very
same completion and changes nothing; a repeated close with the conflicting
choice throws the conflict error and changes nothing; and an omitted argument
defaults to whether the primary connection was created internally. -/
theorem close_repeat (s : CloseState) (b : Bool) (h : s.completion = none) :
    (Lock.close s (some b)).1 = .ok s.nextId ∧
    (Lock.close s (some b)).2.completion = some (s.nextId, b) ∧
    Lock.close (Lock.close s (some b)).2 (some b) =
      (.ok s.nextId, (Lock.close s (some b)).2) ∧
    Lock.close (Lock.close s (some b)).2 (some (!b)) =
      (.error (closeConflictError (!b)), (Lock.close s (some b)).2) ∧
    (∀ s2 : CloseState, Lock.close s2 none =
      Lock.close s2 (some s2.primaryIsNovel)) := by
  refine ⟨?_, ?_, ?_, ?_, fun s2 => rfl⟩
  · simp [Lock.close, h]
  · simp [Lock.close, h]
  · simp [Lock.close, h]
  · simp [Lock.close, h]

/-- C5: a reply reporting a failed attempt while the expired flag is unset
registers the waiter and arms the fallback timer with delay exactly the
maximum of the reported remaining ttl and 100; every new attempt begins by
removing the waiter and the fallback timer; and a fallback-timer or
notification wakeup does nothing but dispatch one new attempt. -/
theorem waitAcquire_retry_wiring :
    (∀ (s : WaitState) (i t : Int), s.resolved = none → s.acquiring = true →
      s.expired = false →
      (waitStep s (.acquireReply false i t)).waiterRegistered = true ∧
      (waitStep s (.acquireReply false i t)).ttlTimer = some (max t 100)) ∧
    (∀ (b : Bool) (s : WaitState),
      (tryAcquire b s).waiterRegistered = false ∧
      (tryAcquire b s).ttlTimer = none) ∧
    (∀ s : WaitState, s.resolved = none → s.ttlTimer.isSome = true →
      waitStep s .ttlTimerFire = tryAcquire false s) ∧
    (∀ s : WaitState, s.resolved = none → s.waiterRegistered = true →
      waitStep s .notify = tryAcquire false s) := by
  refine ⟨fun s i t h1 h2 h3 => ?_, fun b s => ⟨rfl, rfl⟩,
          fun s h1 h2 => ?_, fun s h1 h2 => ?_⟩
  · simp [waitStep, h1, h2, h3]
  · simp [waitStep, h1, h2]
  · simp [waitStep, h1, h2]

/-- Witness for C5 at the state right after the start of a loop. -/
theorem waitAcquire_retry_wiring_witness :
    (waitStart 0).resolved = none ∧ (waitStart 0).acquiring = true ∧
    (waitStart 0).expired = false ∧
    ((waitStep (waitStart 0)
        (.acquireReply false (-1) 42)).waiterRegistered = true ∧
      (waitStep (waitStart 0) (.acquireReply false (-1) 42)).ttlTimer =
        some (max 42 100)) :=
  ⟨rfl, rfl, rfl,
   waitAcquire_retry_wiring.1 (waitStart 0) (-1) 42 rfl rfl rfl⟩

/-- C6 counterexample run: with a positive waitTtl the overall deadline fires
while the very first attempt is still in flight, and that attempt then
reports failure; the loop resolves with success false yet immediate true,
contradicting the claim that every returned outcome other than a succeeding
first attempt carries immediate false. -/
theorem waitAcquire_immediate_cex :
    (waitRun 1 [.deadlineFire, .acquireReply false (-1) 5000]).resolved =
      some { success := false, index := -1, ttl := 5000,
             immediate := true } := by
  decide

/-- C6 amended: the resolved outcome carries immediate equal to the initial
flag of the attempt whose reply resolved the loop, resolution happens only
when that attempt succeeded or the expired flag was already set, the start
dispatches the one attempt whose initial flag is true, and every attempt the
machine dispatches afterwards carries the initial flag false. -/
theorem waitAcquire_immediate_amended :
    (∀ (s : WaitState) (su : Bool) (i t : Int) (o : WaitOutcome),
      s.resolved = none → s.acquiring = true →
      (waitStep s (.acquireReply su i t)).resolved = some o →
      o.immediate = s.pendingInitial ∧ (su = true ∨ s.expired = true)) ∧
    (∀ w : Int, (waitStart w).pendingInitial = true ∧
      (waitStart w).acquiring = true) ∧
    (∀ (s : WaitState) (e : WaitEvent), s.acquiring = false →
      (waitStep s e).acquiring = true →
      (waitStep s e).pendingInitial = false) := by
  refine ⟨fun s su i t o h1 h2 h3 => ?_, fun w => ⟨rfl, rfl⟩,
          fun s e h1 h2 => ?_⟩
  · cases hsu : su <;> cases hexp : s.expired <;>
      simp [waitStep, h1, h2, hsu, hexp] at h3 <;>
      simp [← h3, hexp]
  · by_cases hres : s.resolved.isSome = true
    · simp [waitStep, hres] at h2
      simp [h1] at h2
    · cases e with
      | acquireReply su i t =>
        simp [waitStep, hres, h1] at h2
      | deadlineFire =>
        by_cases hd : s.deadlineArmed = true
        · simp [waitStep, hres, hd, h1, tryAcquire]
        · simp [waitStep, hres, hd] at h2
          simp [h1] at h2
      | ttlTimerFire =>
        by_cases ht : s.ttlTimer.isSome = true
        · simp [waitStep, hres, ht, tryAcquire]
        · simp [waitStep, hres, ht] at h2
          simp [h1] at h2
      | notify =>
        by_cases hw : s.waiterRegistered = true
        · simp [waitStep, hres, hw, tryAcquire]
        · simp [waitStep, hres, hw] at h2
          simp [h1] at h2

/-- Witness for C6 at the first attempt of a loop succeeding at once. -/
theorem waitAcquire_immediate_amended_witness :
    (waitStart 0).resolved = none ∧ (waitStart 0).acquiring = true ∧
    (waitStep (waitStart 0)
        (.acquireReply true 1 5)).resolved =
      some { success := true, index := 1, ttl := 5, immediate := true } ∧
    ((WaitOutcome.mk true 1 5 true).immediate =
        (waitStart 0).pendingInitial ∧
      (true = true ∨ (waitStart 0).expired = true)) :=
  ⟨rfl, rfl, by decide,
   waitAcquire_immediate_amended.1 (waitStart 0) true 1 5 ⟨true, 1, 5, true⟩
     rfl rfl (by decide)⟩

/-- Witness for C9 at a fresh close state. -/
theorem close_repeat_witness :
    CloseState.completion ⟨true, none, 0⟩ = none ∧
    ((Lock.close ⟨true, none, 0⟩ (some false)).1 = .ok 0 ∧
      (Lock.close ⟨true, none, 0⟩ (some false)).2.completion =
        some (0, false) ∧
      Lock.close (Lock.close ⟨true, none, 0⟩ (some false)).2 (some false) =
        (.ok 0, (Lock.close ⟨true, none, 0⟩ (some false)).2) ∧
      Lock.close (Lock.close ⟨true, none, 0⟩ (some false)).2 (some (!false)) =
        (.error (closeConflictError (!false)),
         (Lock.close ⟨true, none, 0⟩ (some false)).2) ∧
      (∀ s2 : CloseState, Lock.close s2 none =
        Lock.close s2 (some s2.primaryIsNovel))) :=
  ⟨rfl, close_repeat ⟨true, none, 0⟩ false rfl⟩

theorem lifeRun_append (as bs : List LifeEvent) (s : LifeState) :
    lifeRun s (as ++ bs) =
      (lifeRun s as).bind (fun s1 => lifeRun s1 bs) := by
  induction as generalizing s with
  | nil => simp [lifeRun]
  | cons e rest ih =>
    simp only [List.cons_append, lifeRun]
    cases hstep : lifeStep s e with
    | none => simp
    | some s1 => simpa using ih s1

theorem lifeStep_inv (s s' : LifeState) (e : LifeEvent)
    (h : lifeStep s e = some s') (hi : LifeInv s) : LifeInv s' := by
  cases e with
  | opStart t =>
    simp only [lifeStep] at h
    split at h
    · exact absurd h (by simp)
    · rename_i hcond
      simp only [Option.some.injEq] at h
      subst h
      intro hd
      exact absurd (hi hd).1 (fun hc => hcond (Or.inl hc))
  | opDone t =>
    simp only [lifeStep] at h
    split at h
    · rename_i hmem
      simp only [Option.some.injEq] at h
      subst h
      intro hd
      simp only [Bool.or_eq_true, Bool.and_eq_true] at hd
      rcases hd with hd | ⟨hcl, hem⟩
      · rcases hi hd with ⟨hc, ha⟩
        rw [ha] at hmem
        simp at hmem
      · refine ⟨hcl, ?_⟩
        simpa using hem
    · exact absurd h (by simp)
  | closeCall =>
    simp only [lifeStep] at h
    split at h
    · exact absurd h (by simp)
    · simp only [Option.some.injEq] at h
      subst h
      intro hd
      refine ⟨rfl, ?_⟩
      simpa using hd
  | quit =>
    simp only [lifeStep] at h
    split at h
    · simp only [Option.some.injEq] at h
      subst h
      intro hd
      exact hi hd
    · exact absurd h (by simp)

theorem lifeRun_inv (es : List LifeEvent) (s s' : LifeState)
    (h : lifeRun s es = some s') (hi : LifeInv s) : LifeInv s' := by
  induction es generalizing s with
  | nil =>
    simp only [lifeRun, Option.some.injEq] at h
    subst h
    exact hi
  | cons e rest ih =>
    simp only [lifeRun] at h
    cases hstep : lifeStep s e with
    | none => rw [hstep] at h; exact absurd h (by simp)
    | some s1 =>
      rw [hstep] at h
      exact ih s1 h (lifeStep_inv s s1 e hstep hi)

theorem active_persists (es : List LifeEvent) (s s' : LifeState) (t : Nat)
    (h : lifeRun s es = some s') (hmem : t ∈ s.active)
    (hnd : LifeEvent.opDone t ∉ es) : t ∈ s'.active := by
  induction es generalizing s with
  | nil =>
    simp only [lifeRun, Option.some.injEq] at h
    subst h
    exact hmem
  | cons e rest ih =>
    simp only [lifeRun] at h
    cases hstep : lifeStep s e with
    | none => rw [hstep] at h; exact absurd h (by simp)
    | some s1 =>
      rw [hstep] at h
      have hnd1 : LifeEvent.opDone t ∉ rest := fun hc =>
        hnd (List.mem_cons_of_mem _ hc)
      refine ih s1 h ?_ hnd1
      cases e with
      | opStart u =>
        simp only [lifeStep] at hstep
        split at hstep
        · exact absurd hstep (by simp)
        · simp only [Option.some.injEq] at hstep
          subst hstep
          exact List.mem_cons_of_mem _ hmem
      | opDone u =>
        have hut : t ≠ u := fun hc => hnd (by simp [hc])
        simp only [lifeStep] at hstep
        split at hstep
        · simp only [Option.some.injEq] at hstep
          subst hstep
          exact (List.mem_erase_of_ne hut).mpr hmem
        · exact absurd hstep (by simp)
      | closeCall =>
        simp only [lifeStep] at hstep
        split at hstep
        · exact absurd hstep (by simp)
        · simp only [Option.some.injEq] at hstep
          subst hstep
          exact hmem
      | quit =>
        simp only [lifeStep] at hstep
        split at hstep
        · simp only [Option.some.injEq] at hstep
          subst hstep
          exact hmem
        · exact absurd hstep (by simp)

theorem started_active (es : List LifeEvent) (s s' : LifeState) (t : Nat)
    (h : lifeRun s es = some s') (hst : LifeEvent.opStart t ∈ es)
    (hnd : LifeEvent.opDone t ∉ es) : t ∈ s'.active := by
  induction es generalizing s with
  | nil => simp at hst
  | cons e rest ih =>
    simp only [lifeRun] at h
    cases hstep : lifeStep s e with
    | none => rw [hstep] at h; exact absurd h (by simp)
    | some s1 =>
      rw [hstep] at h
      have hnd1 : LifeEvent.opDone t ∉ rest := fun hc =>
        hnd (List.mem_cons_of_mem _ hc)
      rcases List.mem_cons.mp hst with he | hrest
      · subst he
        simp only [lifeStep] at hstep
        split at hstep
        · exact absurd hstep (by simp)
        · simp only [Option.some.injEq] at hstep
          subst hstep
          exact active_persists rest _ s' t h (List.mem_cons_self _ _) hnd1
      · exact ih s1 h hrest hnd1

/-- C8: in every valid lifecycle trace that ends with the connection
teardown, every operation that registered in the Active-Operation Set has
completed before the teardown: the drain wait completes only once the set is
empty, so close never quits the connections while a registered operation,
including a wait-acquire loop registered as one entry, is outstanding. -/
theorem close_waits_for_active_ops (es : List LifeEvent) (s' : LifeState)
    (h : lifeRun LifeState.init (es ++ [LifeEvent.quit]) = some s')
    (t : Nat) (hst : LifeEvent.opStart t ∈ es) : LifeEvent.opDone t ∈ es := by
  by_contra hnd
  rw [lifeRun_append] at h
  cases hm : lifeRun LifeState.init es with
  | none => rw [hm] at h; exact absurd h (by simp)
  | some sm =>
    rw [hm] at h
    simp only [Option.some_bind] at h
    have hdr : sm.drained = true := by
      cases hq : lifeStep sm LifeEvent.quit with
      | none =>
        simp only [lifeRun, hq] at h
        exact Option.noConfusion h
      | some s1 =>
        simp only [lifeStep] at hq
        split at hq
        · rename_i hcond
          simp only [Bool.and_eq_true] at hcond
          exact hcond.1
        · exact absurd hq (by simp)
    have hinv : LifeInv sm :=
      lifeRun_inv es LifeState.init sm hm
        (fun hd => by simp [LifeState.init] at hd)
    have hmem := started_active es LifeState.init sm t hm hst hnd
    rw [(hinv hdr).2] at hmem
    simp at hmem

/-- Witness for C8 at a trace registering one operation, closing while it is
outstanding and quitting after it completes. -/
theorem close_waits_for_active_ops_witness :
    lifeRun LifeState.init
        ([LifeEvent.opStart 0, LifeEvent.closeCall, LifeEvent.opDone 0] ++
          [LifeEvent.quit]) =
      some { active := [], closing := true, drained := true,
             quitDone := true } ∧
    LifeEvent.opStart 0 ∈
      [LifeEvent.opStart 0, LifeEvent.closeCall, LifeEvent.opDone 0] ∧
    LifeEvent.opDone 0 ∈
      [LifeEvent.opStart 0, LifeEvent.closeCall, LifeEvent.opDone 0] :=
  ⟨by decide, by decide,
   close_waits_for_active_ops
     [LifeEvent.opStart 0, LifeEvent.closeCall, LifeEvent.opDone 0]
     { active := [], closing := true, drained := true, quitDone := true }
     (by decide) 0 (by decide)⟩
